import Mathlib

/-! Verification of the RagBot orchestration and provider-management layer.

Shallow embedding of:
- src/utils/gemini_api_manager.py (credential pool: ApiKeyStatus, GeminiApiManager)
- src/utils/config.py (get_api_key)
- src/services/chat_orchestrator.py (request orchestration, source formatting, dedup)
- src/services/ai_service.py (error classification of provider failures)

Python strings are modelled as Lean String, the slice s[:n] as pyTake, len(s) as
pyLen (both act on the character list, as Python slices by code point).
time.time() is modelled as an explicit integer clock (whole seconds) passed to
every operation that reads it; random.choice is modelled by an explicit pick index reduced
modulo the candidate list length. The api_statuses dict of GeminiApiManager is
keyed 0..n-1 in insertion order, so it is modelled as a list whose position is
the dict key.
-/

namespace RagBot

/-- Python s[:n], slicing by code point. -/
def pyTake (s : String) (n : Nat) : String := String.mk (s.data.take n)

/-- Python len(s). -/
def pyLen (s : String) : Nat := s.data.length

/-- Whether pat is an initial segment of hay. -/
def charsStartWith : List Char → List Char → Bool
  | [], _ => true
  | _ :: _, [] => false
  | p :: ps, h :: hs => p == h && charsStartWith ps hs

/-- Naive substring search over character lists. -/
def charsContain (pat hay : List Char) : Bool :=
  match hay with
  | [] => charsStartWith pat []
  | _ :: hs => charsStartWith pat hay || charsContain pat hs

/-- Python substring test, pat in s. -/
def strContains (s pat : String) : Bool := charsContain pat.data s.data

/-- Python s.lower(), by code point. -/
def pyLower (s : String) : String := String.mk (s.data.map Char.toLower)

/-- Embeds dataclass ApiKeyStatus, gemini_api_manager.py lines 15-23. -/
structure ApiKeyStatus where
  index : Nat
  key : String
  last_used : ℤ := 0
  quota_exhausted_at : Option ℤ := none
  consecutive_failures : Nat := 0
  is_available : Bool := true
deriving DecidableEq

instance : Inhabited ApiKeyStatus := ⟨{ index := 0, key := "" }⟩

/-- Embeds ApiKeyStatus.is_quota_exhausted, lines 25-31: exhausted iff the mark
is set and less than 60 seconds old. -/
def ApiKeyStatus.is_quota_exhausted (s : ApiKeyStatus) (now : ℤ) : Bool :=
  match s.quota_exhausted_at with
  | none => false
  | some t => decide (now - t < 60)

/-- Embeds ApiKeyStatus.mark_quota_exhausted, lines 33-37. -/
def ApiKeyStatus.mark_quota_exhausted (s : ApiKeyStatus) (now : ℤ) : ApiKeyStatus :=
  { s with quota_exhausted_at := some now,
           consecutive_failures := s.consecutive_failures + 1 }

/-- Embeds ApiKeyStatus.mark_success, lines 39-45. -/
def ApiKeyStatus.mark_success (s : ApiKeyStatus) (now : ℤ) : ApiKeyStatus :=
  { s with quota_exhausted_at := none, consecutive_failures := 0,
           last_used := now, is_available := true }

/-- Embeds ApiKeyStatus.mark_failure, lines 47-52. -/
def ApiKeyStatus.mark_failure (s : ApiKeyStatus) : ApiKeyStatus :=
  let s1 := { s with consecutive_failures := s.consecutive_failures + 1 }
  if s1.consecutive_failures ≥ 3 then { s1 with is_available := false } else s1

/-- Embeds the body of GeminiApiManager.reset_api_key, lines 202-209, at the
level of one status. -/
def ApiKeyStatus.reset (s : ApiKeyStatus) : ApiKeyStatus :=
  { s with quota_exhausted_at := none, consecutive_failures := 0, is_available := true }

/-- The api_statuses dict, keyed 0..n-1: position = dict key. -/
abbrev GeminiPool := List ApiKeyStatus

/-- Whether the key at dict position i passes the availability test of
get_available_keys, lines 74-82. -/
def key_eligible (now : ℤ) (pool : GeminiPool) (i : Nat) : Bool :=
  match pool.get? i with
  | some s => s.is_available && !(s.is_quota_exhausted now)
  | none => false

/-- Embeds GeminiApiManager.get_available_keys, lines 74-82; the dict is
iterated in key order 0..n-1. -/
def get_available_keys (now : ℤ) (pool : GeminiPool) : List Nat :=
  (List.range pool.length).filter (key_eligible now pool)

/-- Embeds the weight of one key in select_random_api_key, lines 96-101:
weight = max(1.0, time_since_use / 10.0), then int() truncation. The value is
at least 1, so int() truncation equals the floor, and floor of the exact
quotient t / 10 at an integer clock is Int.fdiv t 10. -/
def key_weight (now : ℤ) (s : ApiKeyStatus) : Nat :=
  (max 1 ((now - s.last_used).fdiv 10)).toNat

/-- The weighted_keys list of select_random_api_key, lines 93-101: each
available key replicated by its integer weight. -/
def weighted_keys (now : ℤ) (pool : GeminiPool) : List Nat :=
  (get_available_keys now pool).flatMap (fun i =>
    match pool.get? i with
    | some s => List.replicate (key_weight now s) i
    | none => [])

/-- Embeds GeminiApiManager.select_random_api_key, lines 84-111. random.choice
is modelled by the pick index taken modulo the candidate count. -/
def select_random_api_key (now : ℤ) (pick : Nat) (pool : GeminiPool) : Option Nat :=
  let available_keys := get_available_keys now pool
  if available_keys.isEmpty then none
  else
    let wk := weighted_keys now pool
    if wk.isEmpty then some (available_keys.getD (pick % available_keys.length) 0)
    else some (wk.getD (pick % wk.length) 0)

/-- Embeds GeminiApiManager._find_earliest_quota_recovery, lines 148-160, as a
fold over dict keys in order with the running strict minimum. -/
def find_earliest_quota_recovery_aux (pool : GeminiPool) :
    List Nat → Option (Nat × ℤ) → Option (Nat × ℤ)
  | [], acc => acc
  | i :: rest, acc =>
    let acc2 :=
      match pool.get? i with
      | some s =>
        match s.quota_exhausted_at with
        | some t =>
          match acc with
          | none => some (i, t + 60)
          | some (j, best) => if t + 60 < best then some (i, t + 60) else some (j, best)
        | none => acc
      | none => acc
    find_earliest_quota_recovery_aux pool rest acc2

/-- Embeds GeminiApiManager._find_earliest_quota_recovery, lines 148-160. -/
def find_earliest_quota_recovery (pool : GeminiPool) : Option (Nat × ℤ) :=
  find_earliest_quota_recovery_aux pool (List.range pool.length) none

/-- The in-place clearing of quota_exhausted_at performed by
get_api_key_with_fallback, line 137. -/
def clear_quota (pool : GeminiPool) (i : Nat) : GeminiPool :=
  match pool.get? i with
  | some s => pool.set i { s with quota_exhausted_at := none }
  | none => pool

/-- Embeds GeminiApiManager.get_api_key_with_fallback, lines 113-146. The
asyncio sleep until the recovery time is modelled by the returned clock value
max now recovery_time; none models the final ValueError. Result:
some ((api_key_index, is_fallback_used), return_time, updated pool). -/
def get_api_key_with_fallback (now : ℤ) (pick : Nat) (pool : GeminiPool) :
    Option ((Nat × Bool) × ℤ × GeminiPool) :=
  match select_random_api_key now pick pool with
  | some selected_index => some ((selected_index, false), now, pool)
  | none =>
    match find_earliest_quota_recovery pool with
    | some (idx, recovery_time) =>
      some ((idx, true), max now recovery_time, clear_quota pool idx)
    | none =>
      match pool with
      | [] => none
      | _ :: _ => some ((0, true), now, pool)

/-- Embeds GeminiApiManager.mark_api_result, lines 162-175. -/
def mark_api_result (now : ℤ) (pool : GeminiPool) (api_index : Nat)
    (success : Bool) (is_quota_error : Bool) : GeminiPool :=
  match pool.get? api_index with
  | none => pool
  | some s =>
    pool.set api_index
      (if success then s.mark_success now
       else if is_quota_error then s.mark_quota_exhausted now
       else s.mark_failure)

/-- Embeds GeminiApiManager.reset_api_key, lines 202-209. -/
def reset_api_key (pool : GeminiPool) (api_index : Nat) : GeminiPool :=
  match pool.get? api_index with
  | some s => pool.set api_index s.reset
  | none => pool

/-! ## Claim C5: failure-count disabling policy -/

/-- A credential already disabled after repeated failures. -/
def c5_disabled_status : ApiKeyStatus :=
  { index := 0, key := "k0", last_used := 0, quota_exhausted_at := none,
    consecutive_failures := 3, is_available := false }

/-- C5 counterexample: the claim says only an explicit reset re-enables a
disabled credential, but mark_success (lines 39-45) sets is_available back to
true on a disabled credential as well. -/
theorem c5_success_reenables_disabled :
    c5_disabled_status.is_available = false
    ∧ (c5_disabled_status.mark_success 5).is_available = true := by
  constructor <;> rfl

/-- C5 (amended): three consecutive non-quota failures disable a credential;
a further failure or a quota mark never re-enables it (mark_failure only turns
availability off, mark_quota_exhausted leaves it unchanged); it is re-enabled
exactly by an explicit reset or by a reported success. -/
theorem c5_disable_policy (s : ApiKeyStatus) (now : ℤ) :
    (s.mark_failure.mark_failure.mark_failure).is_available = false
    ∧ (s.mark_failure).is_available
        = (if s.consecutive_failures + 1 ≥ 3 then false else s.is_available)
    ∧ (s.mark_quota_exhausted now).is_available = s.is_available
    ∧ (s.mark_success now).is_available = true
    ∧ (s.reset).is_available = true := by
  refine ⟨?_, ?_, rfl, rfl, rfl⟩
  · simp only [ApiKeyStatus.mark_failure]
    split <;> split <;> split <;> simp_all
  · simp only [ApiKeyStatus.mark_failure]
    split <;> simp_all

/-! ## Claim C6: every eligible credential has nonzero selection weight -/

lemma one_le_key_weight (now : ℤ) (s : ApiKeyStatus) : 1 ≤ key_weight now s := by
  unfold key_weight
  have h1 : (1:ℤ) ≤ max 1 ((now - s.last_used).fdiv 10) := le_max_left _ _
  omega

lemma mem_available_get? {now : ℤ} {pool : GeminiPool} {i : Nat}
    (h : i ∈ get_available_keys now pool) :
    ∃ s, pool.get? i = some s ∧ s.is_available = true
      ∧ s.is_quota_exhausted now = false := by
  unfold get_available_keys at h
  rw [List.mem_filter] at h
  obtain ⟨-, helig⟩ := h
  unfold key_eligible at helig
  cases hg : pool.get? i with
  | none => rw [hg] at helig; simp at helig
  | some s =>
    rw [hg] at helig
    simp only [Bool.and_eq_true, Bool.not_eq_true'] at helig
    exact ⟨s, rfl, helig.1, helig.2⟩

lemma mem_available_of_get? {now : ℤ} {pool : GeminiPool} {i : Nat} {s : ApiKeyStatus}
    (hg : pool.get? i = some s) (hav : s.is_available = true)
    (hqe : s.is_quota_exhausted now = false) :
    i ∈ get_available_keys now pool := by
  unfold get_available_keys
  rw [List.mem_filter]
  refine ⟨List.mem_range.mpr ?_, ?_⟩
  · exact (List.get?_eq_some.mp hg).1
  · unfold key_eligible
    rw [hg]
    simp [hav, hqe]

/-- C6: every currently eligible credential (available and not quota-exhausted)
appears in the weighted replication list built by select_random_api_key, since
its integer weight max(1, idle_time/10) is at least 1 — so it has nonzero
selection probability under random.choice over that list. -/
theorem c6_eligible_key_has_weight (now : ℤ) (pool : GeminiPool) (i : Nat)
    (h : i ∈ get_available_keys now pool) : i ∈ weighted_keys now pool := by
  obtain ⟨s, hg, -, -⟩ := mem_available_get? h
  unfold weighted_keys
  rw [List.mem_flatMap]
  refine ⟨i, h, ?_⟩
  rw [hg]
  exact List.mem_replicate.mpr ⟨by have := one_le_key_weight now s; omega, rfl⟩

/-- A one-credential pool, fresh. -/
def c6_pool : GeminiPool := [{ index := 0, key := "k0" }]

/-- C6 witness: in the concrete fresh pool, key 0 is eligible and indeed
appears in the weighted list. -/
theorem c6_eligible_key_has_weight_witness :
    0 ∈ get_available_keys 0 c6_pool ∧ 0 ∈ weighted_keys 0 c6_pool :=
  ⟨by decide, c6_eligible_key_has_weight 0 c6_pool 0 (by decide)⟩

/-! ## Claim C4: 60-second quota cooldown of get_api_key_with_fallback -/

lemma not_exhausted_ge {s : ApiKeyStatus} {now T : ℤ}
    (hT : s.quota_exhausted_at = some T)
    (h : s.is_quota_exhausted now = false) : T + 60 ≤ now := by
  unfold ApiKeyStatus.is_quota_exhausted at h
  rw [hT] at h
  simp only [decide_eq_false_iff_not, not_lt] at h
  linarith

lemma select_some_available {now : ℤ} {pick : Nat} {pool : GeminiPool} {j : Nat}
    (hsel : select_random_api_key now pick pool = some j) :
    j ∈ get_available_keys now pool := by
  unfold select_random_api_key at hsel
  by_cases hA : (get_available_keys now pool).isEmpty
  · simp [hA] at hsel
  · rw [if_neg hA] at hsel
    have hlen : 0 < (get_available_keys now pool).length := by
      simp only [List.isEmpty_iff] at hA
      exact List.length_pos.mpr hA
    by_cases hW : (weighted_keys now pool).isEmpty
    · rw [if_pos hW] at hsel
      have hj := Option.some.inj hsel
      rw [List.getD_eq_get? _ _ _] at hj
      have hmod : pick % (get_available_keys now pool).length
          < (get_available_keys now pool).length := Nat.mod_lt _ hlen
      obtain ⟨a, ha⟩ : ∃ a, (get_available_keys now pool).get?
          (pick % (get_available_keys now pool).length) = some a :=
        ⟨_, List.get?_eq_get hmod⟩
      rw [ha] at hj
      simp only [Option.getD_some] at hj
      rw [← hj]
      exact List.get?_mem ha
    · rw [if_neg hW] at hsel
      have hj := Option.some.inj hsel
      rw [List.getD_eq_get? _ _ _] at hj
      have hlenW : 0 < (weighted_keys now pool).length := by
        simp only [List.isEmpty_iff] at hW
        exact List.length_pos.mpr hW
      have hmod : pick % (weighted_keys now pool).length
          < (weighted_keys now pool).length := Nat.mod_lt _ hlenW
      obtain ⟨a, ha⟩ : ∃ a, (weighted_keys now pool).get?
          (pick % (weighted_keys now pool).length) = some a :=
        ⟨_, List.get?_eq_get hmod⟩
      rw [ha] at hj
      simp only [Option.getD_some] at hj
      have hmem : a ∈ weighted_keys now pool := List.get?_mem ha
      rw [← hj]
      unfold weighted_keys at hmem
      rw [List.mem_flatMap] at hmem
      obtain ⟨b, hb, hab⟩ := hmem
      cases hg : pool.get? b with
      | none => rw [hg] at hab; simp at hab
      | some s =>
        rw [hg] at hab
        rw [List.eq_of_mem_replicate hab]
        exact hb

lemma find_earliest_aux_some {pool : GeminiPool} :
    ∀ (l : List Nat) (acc : Option (Nat × ℤ)) (j : Nat) (rec : ℤ),
      find_earliest_quota_recovery_aux pool l acc = some (j, rec) →
      acc = some (j, rec)
      ∨ ∃ s t, pool.get? j = some s ∧ s.quota_exhausted_at = some t ∧ rec = t + 60 := by
  intro l
  induction l with
  | nil =>
    intro acc j rec h
    exact Or.inl h
  | cons i rest ih =>
    intro acc j rec h
    unfold find_earliest_quota_recovery_aux at h
    cases hg : pool.get? i with
    | none =>
      simp only [hg] at h
      exact ih _ _ _ h
    | some s =>
      simp only [hg] at h
      cases hq : s.quota_exhausted_at with
      | none =>
        simp only [hq] at h
        exact ih _ _ _ h
      | some t =>
        simp only [hq] at h
        cases acc with
        | none =>
          have h2 : find_earliest_quota_recovery_aux pool rest (some (i, t + 60))
              = some (j, rec) := h
          rcases ih _ _ _ h2 with hacc | hnew
          · simp only [Option.some.injEq, Prod.mk.injEq] at hacc
            refine Or.inr ⟨s, t, ?_, hq, hacc.2.symm⟩
            rw [← hacc.1]
            exact hg
          · exact Or.inr hnew
        | some p =>
          obtain ⟨j0, best⟩ := p
          have h2 : find_earliest_quota_recovery_aux pool rest
              (if t + 60 < best then some (i, t + 60) else some (j0, best))
              = some (j, rec) := h
          by_cases hlt : t + 60 < best
          · rw [if_pos hlt] at h2
            rcases ih _ _ _ h2 with hacc | hnew
            · simp only [Option.some.injEq, Prod.mk.injEq] at hacc
              refine Or.inr ⟨s, t, ?_, hq, hacc.2.symm⟩
              rw [← hacc.1]
              exact hg
            · exact Or.inr hnew
          · rw [if_neg hlt] at h2
            exact ih _ _ _ h2

lemma find_earliest_aux_none {pool : GeminiPool} :
    ∀ (l : List Nat) (acc : Option (Nat × ℤ)),
      find_earliest_quota_recovery_aux pool l acc = none →
      acc = none ∧ ∀ i ∈ l, ∀ s, pool.get? i = some s → s.quota_exhausted_at = none := by
  intro l
  induction l with
  | nil =>
    intro acc h
    exact ⟨h, by simp⟩
  | cons i rest ih =>
    intro acc h
    unfold find_earliest_quota_recovery_aux at h
    have hstep : acc = none ∧ (∀ s, pool.get? i = some s → s.quota_exhausted_at = none)
        ∧ (∀ i2 ∈ rest, ∀ s, pool.get? i2 = some s → s.quota_exhausted_at = none) := by
      cases hg : pool.get? i with
      | none =>
        simp only [hg] at h
        obtain ⟨hacc, hrest⟩ := ih _ h
        refine ⟨hacc, ?_, hrest⟩
        intro s hs
        cases hs
      | some s =>
        simp only [hg] at h
        cases hq : s.quota_exhausted_at with
        | none =>
          simp only [hq] at h
          obtain ⟨hacc, hrest⟩ := ih _ h
          refine ⟨hacc, ?_, hrest⟩
          intro s2 hs2
          rw [← Option.some.inj hs2]
          exact hq
        | some t =>
          simp only [hq] at h
          exfalso
          cases acc with
          | none =>
            have h2 : find_earliest_quota_recovery_aux pool rest (some (i, t + 60)) = none := h
            exact absurd (ih _ h2).1 (by simp)
          | some p =>
            obtain ⟨j0, best⟩ := p
            have h2 : find_earliest_quota_recovery_aux pool rest
                (if t + 60 < best then some (i, t + 60) else some (j0, best)) = none := h
            by_cases hlt : t + 60 < best
            · rw [if_pos hlt] at h2
              exact absurd (ih _ h2).1 (by simp)
            · rw [if_neg hlt] at h2
              exact absurd (ih _ h2).1 (by simp)
    refine ⟨hstep.1, ?_⟩
    intro i2 hi2 s hs
    rcases List.mem_cons.mp hi2 with heq | hmem
    · exact hstep.2.1 s (heq ▸ hs)
    · exact hstep.2.2 i2 hmem s hs

/-- C4: (1) whenever get_api_key_with_fallback returns a credential whose
quota_exhausted_at was some T at call entry, the return-time clock is at least
T + 60 — the credential is never handed out before its recovery time; and
(2) any available credential exhausted at T is back in get_available_keys at
every instant at or after T + 60. -/
theorem c4_quota_cooldown :
    (∀ (pool : GeminiPool) (now : ℤ) (pick i : Nat) (s : ApiKeyStatus) (T : ℤ)
       (f : Bool) (ret : ℤ) (pool2 : GeminiPool),
       pool.get? i = some s → s.quota_exhausted_at = some T →
       get_api_key_with_fallback now pick pool = some ((i, f), ret, pool2) →
       T + 60 ≤ ret)
    ∧ (∀ (pool : GeminiPool) (now : ℤ) (i : Nat) (s : ApiKeyStatus) (T : ℤ),
       pool.get? i = some s → s.quota_exhausted_at = some T →
       s.is_available = true → T + 60 ≤ now →
       i ∈ get_available_keys now pool) := by
  constructor
  · intro pool now pick i s T f ret pool2 hg hT hcall
    unfold get_api_key_with_fallback at hcall
    cases hsel : select_random_api_key now pick pool with
    | some j =>
      rw [hsel] at hcall
      simp only [Option.some.injEq, Prod.mk.injEq] at hcall
      obtain ⟨⟨hji, -⟩, hret, -⟩ := hcall
      subst hji
      obtain ⟨s2, hg2, -, hqe2⟩ := mem_available_get? (select_some_available hsel)
      rw [hg] at hg2
      rw [← Option.some.inj hg2] at hqe2
      rw [← hret]
      exact not_exhausted_ge hT hqe2
    | none =>
      rw [hsel] at hcall
      cases hfind : find_earliest_quota_recovery pool with
      | some p =>
        obtain ⟨idx, recovery_time⟩ := p
        rw [hfind] at hcall
        simp only [Option.some.injEq, Prod.mk.injEq] at hcall
        obtain ⟨⟨hji, -⟩, hret, -⟩ := hcall
        subst hji
        rcases find_earliest_aux_some _ _ _ _ hfind with habs | ⟨s2, t, hg2, hq2, hrec⟩
        · cases habs
        · rw [hg] at hg2
          have hs2 : s2 = s := (Option.some.inj hg2).symm
          rw [hs2, hT] at hq2
          have ht : t = T := Option.some.inj hq2.symm
          rw [← hret, hrec, ht]
          exact le_max_right _ _
      | none =>
        rw [hfind] at hcall
        cases pool with
        | nil => cases hg
        | cons s0 rest =>
          simp only [Option.some.injEq, Prod.mk.injEq] at hcall
          obtain ⟨⟨hji, -⟩, -, -⟩ := hcall
          subst hji
          exfalso
          have hnone := (find_earliest_aux_none _ _ hfind).2
          have h0 : (0:Nat) ∈ List.range (s0 :: rest).length := by
            simp [List.mem_range]
          have := hnone 0 h0 s hg
          rw [hT] at this
          cases this
  · intro pool now i s T hg hT hav hle
    refine mem_available_of_get? hg hav ?_
    unfold ApiKeyStatus.is_quota_exhausted
    rw [hT]
    simp only [decide_eq_false_iff_not, not_lt]
    linarith

/-- A one-credential pool exhausted at time 0. -/
def c4_pool : GeminiPool := [{ index := 0, key := "k0", quota_exhausted_at := some 0 }]

/-- C4 witness: at time 100 the credential exhausted at time 0 is handed out
(100 is past its recovery time 60) and is eligible again. -/
theorem c4_quota_cooldown_witness :
    ((0:ℤ) + 60 ≤ 100) ∧ 0 ∈ get_available_keys 100 c4_pool :=
  ⟨c4_quota_cooldown.1 c4_pool 100 0 0 _ 0 false 100 c4_pool rfl rfl (by decide),
   c4_quota_cooldown.2 c4_pool 100 0 _ 0 rfl rfl rfl (by norm_num)⟩

/-! ## Claim C10: config.get_api_key index wrapping -/

/-- Embeds get_api_key, config.py lines 59-65: filter out falsy keys, raise
ValueError (modelled as Except.error) when none remain, otherwise index with
Python modulo (Int.emod, non-negative for a positive modulus, like Python %). -/
def get_api_key (google_api_keys : List String) (index : ℤ) : Except String String :=
  let valid_keys := google_api_keys.filter (fun k => k != "")
  if valid_keys.isEmpty then .error "No valid Google API keys found"
  else .ok (valid_keys.getD (index % (valid_keys.length : ℤ)).toNat "")

/-- C10: for every integer index (negative and out-of-range included) and any
configuration with at least one valid key, get_api_key returns the key at
position index mod len(valid keys) without raising, and it raises ValueError
exactly when no valid key is configured. -/
theorem c10_get_api_key_total :
    (∀ (google_api_keys : List String) (index : ℤ),
       (google_api_keys.filter (fun k => k != "")) ≠ [] →
       (index % ((google_api_keys.filter (fun k => k != "")).length : ℤ)).toNat
           < (google_api_keys.filter (fun k => k != "")).length
       ∧ get_api_key google_api_keys index
           = .ok ((google_api_keys.filter (fun k => k != "")).getD
               (index % ((google_api_keys.filter (fun k => k != "")).length : ℤ)).toNat ""))
    ∧ (∀ (google_api_keys : List String) (index : ℤ),
       google_api_keys.filter (fun k => k != "") = [] →
       get_api_key google_api_keys index = .error "No valid Google API keys found") := by
  constructor
  · intro keys index hne
    have hlen : 0 < (keys.filter (fun k => k != "")).length := List.length_pos.mpr hne
    have hlenZ : (0:ℤ) < ((keys.filter (fun k => k != "")).length : ℤ) := by exact_mod_cast hlen
    have hmod1 : 0 ≤ index % ((keys.filter (fun k => k != "")).length : ℤ) :=
      Int.emod_nonneg index (by omega)
    have hmod2 : index % ((keys.filter (fun k => k != "")).length : ℤ)
        < ((keys.filter (fun k => k != "")).length : ℤ) :=
      Int.emod_lt_of_pos index hlenZ
    constructor
    · omega
    · unfold get_api_key
      rw [if_neg (by simp [List.isEmpty_iff, hne])]
  · intro keys index heq
    unfold get_api_key
    rw [if_pos (by simp [List.isEmpty_iff, heq])]

/-- C10 witness: keys ["a", "", "b"] and index -1: the valid keys are
["a", "b"], -1 mod 2 = 1, and the call yields "b". -/
theorem c10_get_api_key_total_witness :
    ((["a", "", "b"] : List String).filter (fun k => k != "") ≠ []
      ∧ (((-1:ℤ) % (((["a", "", "b"] : List String).filter (fun k => k != "")).length : ℤ)).toNat
          < ((["a", "", "b"] : List String).filter (fun k => k != "")).length
        ∧ get_api_key ["a", "", "b"] (-1) = .ok "b"))
    ∧ get_api_key ["", ""] 0 = .error "No valid Google API keys found" :=
  ⟨⟨by decide, by
      have h := c10_get_api_key_total.1 ["a", "", "b"] (-1) (by decide)
      exact ⟨h.1, by rw [h.2]; exact rfl⟩⟩,
   c10_get_api_key_total.2 ["", ""] 0 (by decide)⟩

/-! ## Source normalization (chat_orchestrator.py lines 168-245) -/

/-- The shapes _format_single_source dispatches on: a langchain Document
(page_content plus metadata whose "source" entry may be present), an already
formatted dict (content given in its str() form), a plain string, or any other
object given by its str() form. -/
inductive RawSource where
  | doc (page_content : String) (metadata_source : Option String)
  | dict (name : Option String) (content : Option String) (metadata : List (String × String))
  | str (s : String)
  | other (s : String)
deriving DecidableEq

/-- The dictionary produced by _format_single_source: keys name, content,
preview, document_type, metadata. -/
structure SourceDict where
  name : String
  content : String
  preview : String
  document_type : String
  metadata : List (String × String)
deriving DecidableEq

/-- The preview expression content[:200] + "..." if len(content) > 200 else
content, chat_orchestrator.py lines 202, 211, 220, 229. -/
def preview_of (content : String) : String :=
  if pyLen content > 200 then pyTake content 200 ++ "..." else content

/-- Embeds ChatOrchestrator._format_single_source, lines 187-235. -/
def format_single_source (source : RawSource) (source_type : String) (index : Nat) :
    SourceDict :=
  match source with
  | .doc page_content metadata_source =>
    let dflt := s!"Source {index + 1}"
    let name0 := metadata_source.getD dflt
    let name :=
      if name0 != dflt && strContains name0 "/" then (name0.splitOn "/").getLastD name0
      else if name0 != dflt && strContains name0 "\\" then (name0.splitOn "\\").getLastD name0
      else name0
    { name := name, content := pyTake page_content 500,
      preview := preview_of page_content, document_type := source_type, metadata := [] }
  | .dict name content metadata =>
    let c := content.getD ""
    { name := name.getD s!"Source {index + 1}", content := pyTake c 500,
      preview := preview_of c, document_type := source_type, metadata := metadata }
  | .str s =>
    { name := s!"Text Source {index + 1}", content := pyTake s 500,
      preview := preview_of s, document_type := source_type, metadata := [] }
  | .other s =>
    { name := s!"Unknown Source {index + 1}", content := pyTake s 500,
      preview := preview_of s, document_type := source_type, metadata := [] }

/-- Embeds ChatOrchestrator._safely_format_sources, lines 168-185: one record
per input, formatted with its position. -/
def safely_format_sources (sources : List RawSource) (source_type : String) :
    List SourceDict :=
  (List.range sources.length).filterMap (fun i =>
    (sources.get? i).map (fun s => format_single_source s source_type i))

/-! ## Claim C9: truncation bounds of normalized sources -/

lemma pyLen_pyTake (s : String) (n : Nat) : pyLen (pyTake s n) ≤ n := by
  unfold pyLen pyTake
  simp [List.length_take]

lemma pyLen_append (a b : String) : pyLen (a ++ b) = pyLen a + pyLen b := by
  cases a with
  | mk da =>
    cases b with
    | mk db =>
      show (da ++ db).length = da.length + db.length
      exact List.length_append da db

lemma pyLen_preview_of (c : String) : pyLen (preview_of c) ≤ 203 := by
  unfold preview_of
  by_cases h : pyLen c > 200
  · rw [if_pos h, pyLen_append]
    have h1 := pyLen_pyTake c 200
    have h2 : pyLen "..." = 3 := by decide
    omega
  · rw [if_neg h]
    omega

/-- A 201-character string. -/
def c9_long_string : String := String.mk (List.replicate 201 'a')

set_option maxRecDepth 4000 in
/-- C9 counterexample: the claim bounds every preview by 200 characters, but
for content longer than 200 characters the code emits content[:200] + "...",
which is 203 characters. -/
theorem c9_preview_exceeds_200 :
    ¬ (pyLen (format_single_source (RawSource.str c9_long_string) "document" 0).preview
        ≤ 200) := by
  decide

/-- C9 (amended): for every raw source of any shape, the normalized content is
at most 500 characters and the normalized preview is at most 203 characters
(200 characters of content plus a 3-character ellipsis; the preview is derived
from the content when the input carries none). -/
theorem c9_truncation_bounds (source : RawSource) (source_type : String) (index : Nat) :
    pyLen (format_single_source source source_type index).content ≤ 500
    ∧ pyLen (format_single_source source source_type index).preview ≤ 203 := by
  cases source <;>
    exact ⟨pyLen_pyTake _ 500, pyLen_preview_of _⟩

/-! ## Claim C8: deduplication by (name, content[:100]) identity
(chat_orchestrator.py lines 247-289) -/

/-- Embeds the pydantic SourceItem (schemas.py lines 12-24) as far as
deduplication reads it: optional name and content. -/
structure SourceItem where
  name : Option String := none
  content : Option String := none
  preview : Option String := none
  document_type : Option String := none
deriving DecidableEq

/-- Python x or dflt for an optional string: None and "" are falsy. -/
def pyOr (x : Option String) (dflt : String) : String :=
  match x with
  | none => dflt
  | some s => if s = "" then dflt else s

/-- Identity of an existing session source (an object with name and content
attributes), lines 254-257: (name or "Unknown", (content or "")[:100]). -/
def existing_identifier (s : SourceItem) : String × String :=
  (pyOr s.name "Unknown", pyTake (pyOr s.content "") 100)

/-- Identity of an incoming formatted source dict, lines 271-273:
(get name "Unknown", str(get content "")[:100]); our dicts always carry both
keys. -/
def incoming_identifier (d : SourceDict) : String × String :=
  (d.name, pyTake d.content 100)

/-- The filtering loop of _add_unique_sources_to_session, lines 268-281: keep
an incoming dict iff its identity is not in the seen set, and extend the seen
set with each kept identity. -/
def filter_unique_sources (seen : List (String × String)) :
    List SourceDict → List SourceDict
  | [] => []
  | d :: rest =>
    if incoming_identifier d ∈ seen then filter_unique_sources seen rest
    else d :: filter_unique_sources (incoming_identifier d :: seen) rest

/-- Embeds _add_unique_sources_to_session, lines 247-289, as the value added
to the session source collection: the existing identifier set is built from
the session sources, then the incoming batch is filtered against it. -/
def add_unique_sources (existing : List SourceItem) (incoming : List SourceDict) :
    List SourceDict :=
  filter_unique_sources (existing.map existing_identifier) incoming

lemma filter_unique_sublist (seen : List (String × String)) (l : List SourceDict) :
    (filter_unique_sources seen l).Sublist l := by
  induction l generalizing seen with
  | nil => simp [filter_unique_sources]
  | cons d rest ih =>
    unfold filter_unique_sources
    by_cases h : incoming_identifier d ∈ seen
    · rw [if_pos h]
      exact (ih seen).cons d
    · rw [if_neg h]
      exact (ih _).cons₂ d

lemma filter_unique_not_seen (seen : List (String × String)) (l : List SourceDict) :
    ∀ d ∈ filter_unique_sources seen l, incoming_identifier d ∉ seen := by
  induction l generalizing seen with
  | nil => simp [filter_unique_sources]
  | cons d0 rest ih =>
    unfold filter_unique_sources
    by_cases h : incoming_identifier d0 ∈ seen
    · rw [if_pos h]
      exact ih seen
    · rw [if_neg h]
      intro d hd
      rcases List.mem_cons.mp hd with heq | hmem
      · rw [heq]
        exact h
      · have := ih _ d hmem
        intro habs
        exact this (List.mem_cons_of_mem _ habs)

lemma filter_unique_nodup (seen : List (String × String)) (l : List SourceDict) :
    ((filter_unique_sources seen l).map incoming_identifier).Nodup := by
  induction l generalizing seen with
  | nil => simp [filter_unique_sources]
  | cons d0 rest ih =>
    unfold filter_unique_sources
    by_cases h : incoming_identifier d0 ∈ seen
    · rw [if_pos h]
      exact ih seen
    · rw [if_neg h]
      simp only [List.map_cons, List.nodup_cons]
      refine ⟨?_, ih _⟩
      intro habs
      obtain ⟨d, hd, hid⟩ := List.mem_map.mp habs
      have := filter_unique_not_seen _ _ d hd
      rw [hid] at this
      exact this (List.mem_cons_self _ _)

lemma filter_unique_find? (seen : List (String × String)) (l : List SourceDict)
    (key : String × String) (hkey : key ∉ seen) :
    (filter_unique_sources seen l).find? (fun d => decide (incoming_identifier d = key))
      = l.find? (fun d => decide (incoming_identifier d = key)) := by
  induction l generalizing seen with
  | nil => simp [filter_unique_sources]
  | cons d0 rest ih =>
    unfold filter_unique_sources
    by_cases h : incoming_identifier d0 ∈ seen
    · rw [if_pos h]
      have hne : incoming_identifier d0 ≠ key := by
        intro habs
        rw [habs] at h
        exact hkey h
      rw [List.find?_cons_of_neg _ (by simpa using hne)]
      exact ih seen hkey
    · rw [if_neg h]
      by_cases heq : incoming_identifier d0 = key
      · rw [List.find?_cons_of_pos _ (by simpa using heq),
          List.find?_cons_of_pos _ (by simpa using heq)]
      · rw [List.find?_cons_of_neg _ (by simpa using heq),
          List.find?_cons_of_neg _ (by simpa using heq)]
        refine ih _ ?_
        intro habs
        rcases List.mem_cons.mp habs with h1 | h2
        · exact heq h1.symm
        · exact hkey h2

/-- C8: the records added to the session are exactly the incoming records
whose (name, content[:100]) identity is absent from the existing set, with
in-batch duplicates collapsed to their first occurrence: the result is an
in-order sublist of the incoming batch, none of its identities occurs among
the existing sources, its identities are pairwise distinct (so each added
record is unique relative to the union), and for every identity not already
present the first matching record of the result is the first matching record
of the incoming batch. -/
theorem c8_dedupe_by_identity (existing : List SourceItem) (incoming : List SourceDict) :
    (add_unique_sources existing incoming).Sublist incoming
    ∧ (∀ d ∈ add_unique_sources existing incoming,
         incoming_identifier d ∉ existing.map existing_identifier)
    ∧ ((add_unique_sources existing incoming).map incoming_identifier).Nodup
    ∧ (∀ key : String × String, key ∉ existing.map existing_identifier →
         (add_unique_sources existing incoming).find?
             (fun d => decide (incoming_identifier d = key))
           = incoming.find? (fun d => decide (incoming_identifier d = key))) :=
  ⟨filter_unique_sublist _ _,
   filter_unique_not_seen _ _,
   filter_unique_nodup _ _,
   fun key hkey => filter_unique_find? _ _ key hkey⟩

/-- An existing session source named a.txt. -/
def c8_existing : List SourceItem :=
  [{ name := some "a.txt", content := some "alpha" }]

/-- An incoming batch: a duplicate of a.txt, a new source, and an in-batch
repeat of the new source. -/
def c8_incoming : List SourceDict :=
  [{ name := "a.txt", content := "alpha", preview := "alpha",
     document_type := "rag", metadata := [] },
   { name := "b.txt", content := "beta", preview := "beta",
     document_type := "rag", metadata := [] },
   { name := "b.txt", content := "beta", preview := "beta",
     document_type := "rag", metadata := [] }]

/-- C8 witness: on the concrete lists, the added records avoid the existing
identity and the first b.txt record of the result coincides with the first of
the batch. -/
theorem c8_dedupe_by_identity_witness :
    (("b.txt", "beta") ∉ c8_existing.map existing_identifier)
    ∧ (add_unique_sources c8_existing c8_incoming).find?
          (fun d => decide (incoming_identifier d = ("b.txt", "beta")))
        = c8_incoming.find?
          (fun d => decide (incoming_identifier d = ("b.txt", "beta"))) :=
  ⟨by decide,
   (c8_dedupe_by_identity c8_existing c8_incoming).2.2.2 ("b.txt", "beta") (by decide)⟩

/-! ## Request orchestration (chat_orchestrator.py lines 23-166, 311-366) -/

/-- One transcript turn, session_manager.add_message. -/
structure SessionMessage where
  role : String
  content : String
  ai_type : Option String
  msources : List SourceDict
deriving DecidableEq

/-- The per-session state the orchestrator mutates: the transcript and the
source collection (stored as dicts). -/
structure Session where
  history : List SessionMessage
  sources : List SourceDict
deriving DecidableEq

/-- SessionService.get_session_sources, session_service.py lines 121-138:
stored dicts become SourceItem objects carrying the same fields. -/
def source_item_of_dict (d : SourceDict) : SourceItem :=
  { name := some d.name, content := some d.content,
    preview := some d.preview, document_type := some d.document_type }

/-- SessionService.add_user_message, session_service.py lines 79-81. -/
def add_user_message (s : Session) (message : String) : Session :=
  { s with history := s.history
      ++ [{ role := "user", content := message, ai_type := none, msources := [] }] }

/-- SessionService.add_assistant_message, session_service.py lines 83-95. -/
def add_assistant_message (s : Session) (message mode : String)
    (srcs : List SourceDict) : Session :=
  { s with history := s.history
      ++ [{ role := "assistant", content := message, ai_type := some mode,
            msources := srcs }] }

/-- ChatOrchestrator._add_unique_sources_to_session, lines 247-289, at session
level: dedupe against the converted session sources, append what remains. -/
def add_unique_sources_to_session (s : Session) (new_sources : List SourceDict) :
    Session :=
  let uniq := add_unique_sources (s.sources.map source_item_of_dict) new_sources
  if uniq.isEmpty then s else { s with sources := s.sources ++ uniq }

/-- AI_MODES, config.py line 57. -/
def AI_MODES : List String := ["RAG", "Gemini", "Meta", "MetaRAG"]

/-- SessionService.validate_ai_modes, session_service.py lines 193-195. -/
def validate_ai_modes (ai_modes : List String) : Bool :=
  ai_modes.all (fun mode => AI_MODES.contains mode)

/-- ChatRequest, schemas.py lines 4-10. -/
structure ChatRequest where
  session_id : String
  message : String
  ai_modes : List String
  api_key_index : ℤ := 0
  gemini_model : String := "gemini-1.5-flash"
deriving DecidableEq

/-- ChatResponse, schemas.py lines 26-34. The sources and message_sources are
already plain dicts here, so the safe_to_dict recursion of
_create_safe_response (lines 314-330) is the identity on them. -/
structure ChatResponse where
  answer : Option String := none
  answers : Option (List String) := none
  sources : List SourceDict := []
  message_sources : List (List SourceDict) := []
deriving DecidableEq

/-- What one gathered strategy task delivered to the collection loop, lines
77-94: either an exception surfaced through asyncio.gather (str(result) being
msg) or the (answer, sources) pair produced by process_single_mode. -/
inductive ModeOutcome where
  | exn (msg : String)
  | ok (answer : String) (sources : List RawSource)

/-- The per-mode timeout text of the 60s branch, line 106. -/
def mode_timeout_answer (mode : String) : String :=
  s!"⏰ {mode}: Request timed out after 60 seconds"

/-- The per-mode gather-exception text, line 81. -/
def mode_exn_answer (mode msg : String) : String :=
  s!"❌ {mode} failed: {pyTake msg 200}"

/-- The collection loop over gather results in request order, lines 72-94:
answers, message_sources, all_sources, and the assistant turns appended for
successful results. -/
def run_modes (gen : String → ModeOutcome) :
    List String → Session →
    List String × List (List SourceDict) × List SourceDict × Session
  | [], s => ([], [], [], s)
  | mode :: rest, s =>
    match gen mode with
    | .exn msg =>
      let r := run_modes gen rest s
      (mode_exn_answer mode msg :: r.1, [] :: r.2.1, r.2.2.1, r.2.2.2)
    | .ok answer sources =>
      let fmt := safely_format_sources sources (pyLower mode)
      let r := run_modes gen rest (add_assistant_message s answer mode fmt)
      (answer :: r.1, fmt :: r.2.1, fmt ++ r.2.2.1, r.2.2.2)

/-- ChatOrchestrator._create_safe_response, lines 311-349: exactly one answer
gives the single answer field, otherwise the answers list is carried. -/
def create_safe_response (answers : List String) (session_sources : List SourceDict)
    (message_sources : List (List SourceDict)) : ChatResponse :=
  match answers with
  | [a] => { answer := some a, answers := none, sources := session_sources,
             message_sources := message_sources }
  | _ => { answer := none, answers := some answers, sources := session_sources,
           message_sources := message_sources }

/-- The validation error text of process_chat_request lines 28-29. -/
def invalid_modes_message (ai_modes : List String) : String :=
  let invalid_modes := ai_modes.filter (fun mode => !(AI_MODES.contains mode))
  s!"Invalid AI modes: {invalid_modes}"

/-- ChatOrchestrator.process_chat_request, lines 23-129. gen gives each
strategy task result; timed_out says whether the 60-second gather timeout
fired (possible whatever the individual tasks produced). Returns the response
(Except.error modelling the re-raised ValueError) and the final session. -/
def process_chat_request (gen : String → ModeOutcome) (timed_out : Bool)
    (req : ChatRequest) (session : Session) :
    Except String ChatResponse × Session :=
  if validate_ai_modes req.ai_modes then
    let s1 := add_user_message session req.message
    let r :=
      if timed_out then
        (req.ai_modes.map mode_timeout_answer,
         req.ai_modes.map (fun _ => ([] : List SourceDict)),
         ([] : List SourceDict), s1)
      else run_modes gen req.ai_modes s1
    let s3 := if r.2.2.1.isEmpty then r.2.2.2
              else add_unique_sources_to_session r.2.2.2 r.2.2.1
    (.ok (create_safe_response r.1 s3.sources r.2.1), s3)
  else
    (.error (invalid_modes_message req.ai_modes), session)

/-- The answer text the collection loop records for one mode: the timeout
text when the global deadline fired, the gather-exception text, or the answer
delivered by the task. -/
def mode_answer (gen : String → ModeOutcome) (timed_out : Bool) (mode : String) :
    String :=
  if timed_out then mode_timeout_answer mode
  else
    match gen mode with
    | .exn msg => mode_exn_answer mode msg
    | .ok answer _ => answer

lemma run_modes_spec (gen : String → ModeOutcome) :
    ∀ (modes : List String) (s : Session),
      (run_modes gen modes s).1 = modes.map (mode_answer gen false)
      ∧ (run_modes gen modes s).2.1.length = modes.length := by
  intro modes
  induction modes with
  | nil => intro s; exact ⟨rfl, rfl⟩
  | cons mode rest ih =>
    intro s
    cases hm : gen mode with
    | exn msg =>
      have h1 := ih s
      constructor
      · simp [run_modes, hm, mode_answer, h1.1]
      · simp [run_modes, hm, h1.2]
    | ok answer sources =>
      have h1 := ih (add_assistant_message s answer mode
        (safely_format_sources sources (pyLower mode)))
      constructor
      · simp [run_modes, hm, mode_answer, h1.1]
      · simp [run_modes, hm, h1.2]

lemma mode_answer_true (gen : String → ModeOutcome) :
    mode_answer gen true = mode_timeout_answer := by
  funext mode
  simp [mode_answer]

lemma process_chat_request_valid (gen : String → ModeOutcome) (timed_out : Bool)
    (req : ChatRequest) (session : Session)
    (hv : validate_ai_modes req.ai_modes = true) :
    ∃ (msgsrc : List (List SourceDict)) (s3 : Session),
      process_chat_request gen timed_out req session
        = (.ok (create_safe_response (req.ai_modes.map (mode_answer gen timed_out))
            s3.sources msgsrc), s3)
      ∧ msgsrc.length = req.ai_modes.length := by
  unfold process_chat_request
  rw [if_pos hv]
  cases timed_out with
  | true =>
    refine ⟨req.ai_modes.map (fun _ => ([] : List SourceDict)),
      add_user_message session req.message, ?_, by simp⟩
    rw [mode_answer_true]
    rfl
  | false =>
    have h := run_modes_spec gen req.ai_modes (add_user_message session req.message)
    refine ⟨(run_modes gen req.ai_modes (add_user_message session req.message)).2.1,
      (if (run_modes gen req.ai_modes (add_user_message session req.message)).2.2.1.isEmpty
       then (run_modes gen req.ai_modes (add_user_message session req.message)).2.2.2
       else add_unique_sources_to_session
         (run_modes gen req.ai_modes (add_user_message session req.message)).2.2.2
         (run_modes gen req.ai_modes (add_user_message session req.message)).2.2.1),
      ?_, h.2⟩
    rw [← h.1]
    rfl

/-- C1: for every request whose strategy list is non-empty and valid, the
response carries exactly one outcome entry per requested strategy in request
order: with one strategy the single answer field holds that outcome and the
answers list is absent, with several the answers list is exactly the
request-ordered outcome list and the single answer field is absent; the
per-strategy message_sources list also has one entry per strategy. -/
theorem c1_one_outcome_per_strategy (gen : String → ModeOutcome) (timed_out : Bool)
    (req : ChatRequest) (session : Session)
    (hv : validate_ai_modes req.ai_modes = true) (hne : req.ai_modes ≠ []) :
    ∃ (resp : ChatResponse) (s3 : Session),
      process_chat_request gen timed_out req session = (.ok resp, s3)
      ∧ resp.message_sources.length = req.ai_modes.length
      ∧ ((∃ m, req.ai_modes = [m]
            ∧ resp.answer = some (mode_answer gen timed_out m)
            ∧ resp.answers = none)
        ∨ (2 ≤ req.ai_modes.length
            ∧ resp.answer = none
            ∧ resp.answers = some (req.ai_modes.map (mode_answer gen timed_out)))) := by
  obtain ⟨msgsrc, s3, heq, hlen⟩ :=
    process_chat_request_valid gen timed_out req session hv
  refine ⟨_, s3, heq, ?_, ?_⟩
  · cases hm : req.ai_modes with
    | nil => exact absurd hm hne
    | cons m rest =>
      cases rest with
      | nil => simpa [create_safe_response, hm] using hlen
      | cons m2 rest2 => simpa [create_safe_response, hm] using hlen
  · cases hm : req.ai_modes with
    | nil => exact absurd hm hne
    | cons m rest =>
      cases rest with
      | nil =>
        refine Or.inl ⟨m, rfl, ?_, ?_⟩ <;> simp [create_safe_response, hm]
      | cons m2 rest2 =>
        refine Or.inr ⟨by simp [hm], ?_, ?_⟩ <;> simp [create_safe_response, hm]

/-- A strategy oracle where every task completes normally. -/
def c1_gen : String → ModeOutcome :=
  fun mode => ModeOutcome.ok (mode ++ " says hello") []

/-- A two-strategy request. -/
def c1_request : ChatRequest :=
  { session_id := "s1", message := "hi", ai_modes := ["Gemini", "Meta"] }

/-- The empty session. -/
def empty_session : Session := { history := [], sources := [] }

/-- C1 witness: the two-strategy request is valid and non-empty, and the
theorem applies to it. -/
theorem c1_one_outcome_per_strategy_witness :
    validate_ai_modes c1_request.ai_modes = true
    ∧ ∃ (resp : ChatResponse) (s3 : Session),
        process_chat_request c1_gen false c1_request empty_session = (.ok resp, s3)
        ∧ resp.message_sources.length = c1_request.ai_modes.length
        ∧ ((∃ m, c1_request.ai_modes = [m]
              ∧ resp.answer = some (mode_answer c1_gen false m)
              ∧ resp.answers = none)
          ∨ (2 ≤ c1_request.ai_modes.length
              ∧ resp.answer = none
              ∧ resp.answers = some (c1_request.ai_modes.map (mode_answer c1_gen false)))) :=
  ⟨by decide,
   c1_one_outcome_per_strategy c1_gen false c1_request empty_session (by decide)
     (by decide)⟩

/-- C2: a request containing a strategy name outside the four known modes
fails with the validation error and leaves the session exactly as it was — in
particular its turn count is unchanged and no source was appended. -/
theorem c2_invalid_mode_no_mutation (gen : String → ModeOutcome) (timed_out : Bool)
    (req : ChatRequest) (session : Session) (mode : String)
    (hmem : mode ∈ req.ai_modes) (hbad : AI_MODES.contains mode = false) :
    ∃ e, process_chat_request gen timed_out req session = (.error e, session) := by
  have hv : validate_ai_modes req.ai_modes = false := by
    unfold validate_ai_modes
    by_contra habs
    have htrue : req.ai_modes.all (fun mode => AI_MODES.contains mode) = true := by
      cases h : req.ai_modes.all (fun mode => AI_MODES.contains mode) with
      | true => rfl
      | false => exact absurd h habs
    have := List.all_eq_true.mp htrue mode hmem
    rw [hbad] at this
    cases this
  refine ⟨invalid_modes_message req.ai_modes, ?_⟩
  unfold process_chat_request
  rw [if_neg (by rw [hv]; exact Bool.false_ne_true)]

/-- A request asking for an unknown strategy. -/
def c2_request : ChatRequest :=
  { session_id := "s1", message := "hi", ai_modes := ["Gemini", "GPT4"] }

/-- A session already holding one turn. -/
def c2_session : Session :=
  { history := [{ role := "user", content := "earlier", ai_type := none, msources := [] }],
    sources := [] }

/-- C2 witness: the request naming GPT4 fails and the one-turn session is
returned untouched. -/
theorem c2_invalid_mode_no_mutation_witness :
    "GPT4" ∈ c2_request.ai_modes
    ∧ AI_MODES.contains "GPT4" = false
    ∧ ∃ e, process_chat_request c1_gen false c2_request c2_session
        = (.error e, c2_session) :=
  ⟨by decide, by decide,
   c2_invalid_mode_no_mutation c1_gen false c2_request c2_session "GPT4"
     (by decide) (by decide)⟩

/-- A strategy oracle whose single task completed with a real answer. -/
def c3_gen : String → ModeOutcome :=
  fun _ => ModeOutcome.ok "The capital of France is Paris." []

/-- A single-strategy request. -/
def c3_request : ChatRequest :=
  { session_id := "s1", message := "capital of France?", ai_modes := ["Gemini"] }

/-- C3: evaluating the code at the failing input. The Gemini task has already
completed with a real answer; without the global timeout that answer is
returned and persisted as an assistant turn, but when the 60-second gather
timeout fires the code replaces every outcome by the timeout text — the
completed result is discarded and no assistant turn is written, although the
branch comment (chat_orchestrator.py line 100) announces partial results for
completed modes. -/
theorem c3_timeout_discards_completed_results :
    (process_chat_request c3_gen false c3_request empty_session).1
      = .ok { answer := some "The capital of France is Paris.", answers := none,
              sources := [], message_sources := [[]] }
    ∧ (process_chat_request c3_gen true c3_request empty_session).1
      = .ok { answer := some "⏰ Gemini: Request timed out after 60 seconds",
              answers := none, sources := [], message_sources := [[]] }
    ∧ (process_chat_request c3_gen true c3_request empty_session).2.history
      = [{ role := "user", content := "capital of France?", ai_type := none,
           msources := [] }] :=
  ⟨rfl, rfl, rfl⟩

/-! ## Claim C7: malformed-request (422) handling (ai_service.py) -/

/-- The quota test of generate_gemini_response, ai_service.py line 73:
"ResourceExhausted" in msg or "quota" in msg.lower(). -/
def is_quota_message (msg : String) : Bool :=
  strContains msg "ResourceExhausted" || strContains (pyLower msg) "quota"

/-- The timeout test, ai_service.py lines 91, 183: "timeout" in msg.lower(). -/
def is_timeout_message (msg : String) : Bool :=
  strContains (pyLower msg) "timeout"

/-- The malformed-request test of generate_meta_rag_response, ai_service.py
lines 168, 179, 190: "422" in msg or "unprocessable entity" in msg.lower(). -/
def contains_422 (msg : String) : Bool :=
  strContains msg "422" || strContains (pyLower msg) "unprocessable entity"

/-- The rate-limit test, ai_service.py line 181. -/
def is_rate_limit_message (msg : String) : Bool :=
  strContains (pyLower msg) "rate limit" || strContains (pyLower msg) "too many requests"

/-- Embeds the error handler of generate_gemini_response, ai_service.py lines
69-96, at integer clock now with the credential actual_api_index. The quota
branch (lines 73-89: acquire a fallback credential, retry once) involves the
pool lock, randomness and a second provider call; it is abstracted as
quota_retry applied to the pool in which the quota exhaustion has been
recorded, as line 75 does before any retry. The timeout and generic branches
are modelled exactly. -/
def generate_gemini_response_err (now : ℤ) (pool : GeminiPool)
    (actual_api_index : Nat) (error_msg : String)
    (quota_retry : GeminiPool → String × GeminiPool) : String × GeminiPool :=
  if is_quota_message error_msg then
    quota_retry (mark_api_result now pool actual_api_index false true)
  else if is_timeout_message error_msg then
    ("⏰ Request timed out. Please try again with a shorter message.",
     mark_api_result now pool actual_api_index false false)
  else
    (s!"❌ Error generating answer: {pyTake error_msg 200}",
     mark_api_result now pool actual_api_index false false)

/-- What MetaRAGProcessor.process_query delivered inside
generate_meta_rag_response: a normal (answer, docs) pair or a raised
processing error with message msg. -/
inductive MetaRagProc where
  | ok (answer : String) (docs : List RawSource)
  | procError (msg : String)

/-- Embeds generate_meta_rag_response, ai_service.py lines 155-193, with the
processor outcome given. The function never touches gemini_manager in the
source, so the pool is threaded through unchanged. -/
def generate_meta_rag_response :
    MetaRagProc → GeminiPool → (String × List RawSource) × GeminiPool
  | .ok answer docs, pool =>
    if contains_422 answer then
      (("❌ Unable to process your question due to content validation issues. Please try rephrasing your question or asking about a different topic.", []), pool)
    else ((answer, docs), pool)
  | .procError msg, pool =>
    if contains_422 msg then
      (("❌ HTTP 422 Error: The request could not be processed. This may be due to content validation issues or API restrictions. Please try rephrasing your question.", []), pool)
    else if is_rate_limit_message msg then
      (("⏱️ Rate limit reached with Meta AI. Please wait a moment before trying again.", []), pool)
    else if is_timeout_message msg then
      (("⏰ Request timed out. Please try again with a shorter or simpler question.", []), pool)
    else ((s!"❌ MetaRAG processing error: {pyTake msg 200}", []), pool)

/-- A fresh one-credential pool. -/
def c7_pool : GeminiPool := [{ index := 0, key := "k0" }]

/-- C7 counterexample: the claim says every provider error containing "422"
leaves the credential health untouched, but the pooled Gemini strategy has no
422 branch: the message falls into the generic branch, which reports a
failure, so consecutive_failures moves from 0 to 1 and the pool changes. -/
theorem c7_gemini_reports_422_as_failure :
    ((generate_gemini_response_err 0 c7_pool 0 "HTTP 422 Unprocessable Entity"
        (fun p => ("", p))).2.getD 0 default).consecutive_failures = 1
    ∧ (generate_gemini_response_err 0 c7_pool 0 "HTTP 422 Unprocessable Entity"
        (fun p => ("", p))).2 ≠ c7_pool := by
  constructor
  · decide
  · decide

/-- C7 (amended): for the MetaRAG strategy — the one with 422 handling —
every processing error whose message contains "422" yields the user-facing
validation-issue message with zero sources and leaves the credential pool
untouched; the pooled Gemini strategy instead routes a 422-bearing error
(without quota or timeout markers) to its generic branch, which increments
consecutive_failures of the credential. -/
theorem c7_meta_rag_422_frame (pool : GeminiPool) (msg : String)
    (h422 : contains_422 msg = true) :
    generate_meta_rag_response (.procError msg) pool
      = (("❌ HTTP 422 Error: The request could not be processed. This may be due to content validation issues or API restrictions. Please try rephrasing your question.", []), pool) := by
  simp only [generate_meta_rag_response]
  rw [if_pos h422]

/-- C7 witness: a concrete 422 message through the MetaRAG handler. -/
theorem c7_meta_rag_422_frame_witness :
    contains_422 "HTTP 422 Unprocessable Entity" = true
    ∧ generate_meta_rag_response (.procError "HTTP 422 Unprocessable Entity") c7_pool
      = (("❌ HTTP 422 Error: The request could not be processed. This may be due to content validation issues or API restrictions. Please try rephrasing your question.", []), c7_pool) :=
  ⟨by decide,
   c7_meta_rag_422_frame c7_pool "HTTP 422 Unprocessable Entity" (by decide)⟩

end RagBot
